import Mathlib

/-!
Shallow embedding of the back-to-one-v2 front end (schedule builder,
looks gallery, call-sheet generator) and proofs of the spec's claims.

Conventions used throughout:
* Remote rows and form state become plain Lean structures; the `id`
  columns that the backend generates are kept only where a claim needs
  them (looks, whose reorder writes target rows by id).
* JavaScript falsiness on strings (`s || d`, `s && e`) is modelled by
  `jsOrDefault` / `jsOrNull` on `Option String`: `none` plays the role
  of `null`/`undefined` and the empty string is falsy like in JS.
* Each event handler becomes a pure function from its inputs (component
  state, form state, and an oracle recording the outcome of remote calls
  and of the `confirm` dialog) to the new local state plus an explicit
  trace of the remote writes, prompts and alerts it performs.
-/

/-- JS `o || d` on a nullable string: `null`/`undefined` and `""` are falsy. -/
def jsOrDefault (o : Option String) (d : String) : String :=
  match o with
  | none => d
  | some s => if s = "" then d else s

/-- JS `o || null` on a nullable string: `null`/`undefined` and `""` give `null`. -/
def jsOrNull (o : Option String) : Option String :=
  match o with
  | none => none
  | some s => if s = "" then none else some s

/-- JS `s.trim()`: strip whitespace from both ends, modelled structurally
on the character list (JS's WhiteSpace/LineTerminator set is approximated
by `Char.isWhitespace`, which covers the characters this UI can produce). -/
def jsTrim (s : String) : String :=
  ⟨((s.data.dropWhile Char.isWhitespace).reverse.dropWhile Char.isWhitespace).reverse⟩

/-! ## Schedule builder (ScheduleBuilder component) -/

/-- A `schedule_items` row as this code inserts it.  The backend adds the
`id` column and the columns the insert payload omits (`crew_needed`,
`equipment_needed`, `is_milestone`); no claim touches those, so the row
model carries exactly the insert payload of `addScheduleItem` /
`applyTemplate`. -/
structure ScheduleItem where
  production_id : String
  title : String
  description : String
  start_time : String
  end_time : Option String
  category : String
  location : Option String
  notes : Option String
  sequence_order : Nat
deriving Repr, DecidableEq, Inhabited

/-- The `newItem` form state of the schedule builder: every field is a
plain string bound to an input (absent = empty string). -/
structure NewItemForm where
  title : String
  description : String
  start_time : String
  end_time : String
  category : String
  location : String
  notes : String
deriving Repr, DecidableEq, Inhabited

/-- The row `addScheduleItem` inserts, or `none` when validation bails out
(`!newItem.title.trim() || !newItem.start_time`). -/
def addScheduleItemRow (pid : String) (form : NewItemForm)
    (scheduleItems : List ScheduleItem) : Option ScheduleItem :=
  if jsTrim form.title = "" ∨ form.start_time = "" then none
  else some
    { production_id := pid
      title := jsTrim form.title
      description := jsTrim form.description
      start_time := form.start_time
      end_time := if form.end_time = "" then none else some form.end_time
      category := form.category
      location := if jsTrim form.location = "" then none else some (jsTrim form.location)
      notes := if jsTrim form.notes = "" then none else some (jsTrim form.notes)
      sequence_order := scheduleItems.length }

/-- Result of running `addScheduleItem`: the new local list and the rows
written to the remote store (successful-insert path; on validation
failure nothing is written and local state is untouched). -/
structure AddItemResult where
  newLocal : List ScheduleItem
  inserted : List ScheduleItem
deriving Repr, DecidableEq

/-- `addScheduleItem`: validate, insert one row with
`sequence_order = scheduleItems.length`, append the returned row locally. -/
def addScheduleItem (pid : String) (form : NewItemForm)
    (scheduleItems : List ScheduleItem) : AddItemResult :=
  match addScheduleItemRow pid form scheduleItems with
  | none => ⟨scheduleItems, []⟩
  | some row => ⟨scheduleItems ++ [row], [row]⟩

/-! ## Looks gallery (LooksManagement component) -/

/-- A `looks` row as held in the gallery's local state. -/
structure Look where
  id : String
  name : String
  description : String
  image_url : Option String
  sequence_order : Nat
  styling_notes : String
deriving Repr, DecidableEq, Inhabited

/-- `createLook`'s next sequence order:
`looks.length > 0 ? Math.max(...looks.map(l => l.sequence_order)) + 1 : 0`. -/
def nextLookOrder (looks : List Look) : Nat :=
  if looks.length > 0 then (looks.map (·.sequence_order)).foldl Nat.max 0 + 1
  else 0

/-- Result of a reorder handler: the new local list and the
`(row id, new sequence_order)` update writes issued to the store. -/
structure MoveResult where
  newLooks : List Look
  writes : List (String × Nat)
deriving Repr, DecidableEq

/-- `moveUp(index)`: early-return at index 0; otherwise swap the entries at
`index` and `index - 1`, stamp both with their new positions, and issue the
two `sequence_order` updates.  (In the source an out-of-range `index` would
fault on the element access; the UI only invokes the handler with the index
of a rendered item, so the embedding is defined on that range and the
out-of-range branch is never consulted by a claim.) -/
def moveUp (looks : List Look) (index : Nat) : MoveResult :=
  if index = 0 then ⟨looks, []⟩
  else
    let itemAt := looks.getD index default
    let itemAbove := looks.getD (index - 1) default
    let displaced := { itemAbove with sequence_order := index }
    let moved := { itemAt with sequence_order := index - 1 }
    ⟨(looks.set index displaced).set (index - 1) moved,
     [(itemAbove.id, index), (itemAt.id, index - 1)]⟩

/-- `moveDown(index)`: early-return at the last index (`index ===
looks.length - 1`, an exact JS number comparison, hence the `Int` cast);
otherwise swap the entries at `index` and `index + 1`, stamp both with
their new positions, and issue the two `sequence_order` updates. -/
def moveDown (looks : List Look) (index : Nat) : MoveResult :=
  if (index : Int) = (looks.length : Int) - 1 then ⟨looks, []⟩
  else
    let itemAt := looks.getD index default
    let itemBelow := looks.getD (index + 1) default
    let displaced := { itemBelow with sequence_order := index }
    let moved := { itemAt with sequence_order := index + 1 }
    ⟨(looks.set index displaced).set (index + 1) moved,
     [(itemBelow.id, index), (itemAt.id, index + 1)]⟩

/-! ## Template expansion (`applyTemplate`) -/

/-- One entry of a template's `template_data` array.  The source types it
`any[]`; the fields it reads are `title`, `description`, `start_time`,
`end_time`, `category`, `location`, `notes`, the optional ones guarded by
`||`-defaulting, so each optional field is a nullable string here. -/
structure Blueprint where
  title : String
  description : Option String
  start_time : String
  end_time : Option String
  category : Option String
  location : Option String
  notes : Option String
deriving Repr, DecidableEq, Inhabited

/-- The row built for blueprint `item` at position `index` in
`templateData.map((item, index) => ...)`. -/
def blueprintToItem (pid : String) (bp : Blueprint) (index : Nat) : ScheduleItem :=
  { production_id := pid
    title := bp.title
    description := jsOrDefault bp.description ""
    start_time := bp.start_time
    end_time := jsOrNull bp.end_time
    category := jsOrDefault bp.category "general"
    location := jsOrNull bp.location
    notes := jsOrNull bp.notes
    sequence_order := index }

/-- `templateData.map((item, index) => ...)` starting at position `i`. -/
def itemsToInsert (pid : String) (i : Nat) : List Blueprint → List ScheduleItem
  | [] => []
  | bp :: rest => blueprintToItem pid bp i :: itemsToInsert pid (i + 1) rest

/-- Oracle for one `applyTemplate` run: the user's answer to the `confirm`
dialog (consulted only when the schedule is non-empty) and whether each
remote call succeeds. -/
structure TemplateOracle where
  confirmOk : Bool
  deleteOk : Bool
  insertOk : Bool
deriving Repr, DecidableEq

/-- Full outcome of an `applyTemplate` run: the component's schedule list,
the remote `schedule_items` table, the `confirm` prompts shown, and the
`alert` messages shown. -/
structure TemplateRunResult where
  local_items : List ScheduleItem
  db : List ScheduleItem
  prompts : List String
  alerts : List String
deriving Repr, DecidableEq

/-- `applyTemplate(templateData)`.  With a non-empty schedule it prompts,
bails out on decline, and otherwise issues the bulk delete — whose result
the source discards unchecked.  It then always inserts the mapped rows;
an insert error is only logged (`console.error`), never alerted, and on
success local state becomes the inserted rows. -/
def applyTemplate (pid : String) (templateData : List Blueprint)
    (scheduleItems : List ScheduleItem) (db : List ScheduleItem)
    (o : TemplateOracle) : TemplateRunResult :=
  let confirmMsg := "This will replace your current schedule. Continue?"
  if scheduleItems.length > 0 ∧ o.confirmOk = false then
    { local_items := scheduleItems, db := db, prompts := [confirmMsg], alerts := [] }
  else
    let prompts := if scheduleItems.length > 0 then [confirmMsg] else []
    let dbAfterDelete :=
      if scheduleItems.length > 0 then
        if o.deleteOk then db.filter (fun r => r.production_id ≠ pid) else db
      else db
    let items := itemsToInsert pid 0 templateData
    if o.insertOk then
      { local_items := items, db := dbAfterDelete ++ items
        prompts := prompts, alerts := [] }
    else
      { local_items := scheduleItems, db := dbAfterDelete
        prompts := prompts, alerts := [] }

/-! ## Duration label (`calculateDuration`) -/

/-- `calculateDuration(startTime, endTime)`, with the `HH:MM` time-of-day
strings represented by their minute-of-day values (the UI's `type="time"`
inputs and the templates' times carry whole minutes).  `diffMs / 3600000 <
1` is exactly `diffMins < 60`; in the minutes branch
`Math.round(diffMs / 60000)` is the exact integer `diffMins`.  In the
hours branch `diffHours.toFixed(1)` rounds `diffMins / 60` to one decimal;
the double nearest `diffMins / 60` rounds to the same decimal as the exact
rational except possibly at exact `.x5` ties, modelled here as half-up:
`deci = (diffMins + 3) / 6` tenths of an hour. -/
def calculateDuration (startTime : Nat) (endTime : Option Nat) : String :=
  match endTime with
  | none => ""
  | some e =>
    let diffMins : Int := (e : Int) - (startTime : Int)
    if diffMins < 60 then
      toString diffMins ++ "min"
    else
      let deci : Nat := (diffMins.toNat + 3) / 6
      s!"{deci / 10}.{deci % 10}h"

/-! ## PDF export pagination (`generatePDF`) -/

/-- The A4 page-band height used by `generatePDF` (`pageHeight = 295`,
in mm of PDF space). -/
def pageHeight : ℚ := 295

/-- The number of `addPage`/`addImage` rounds performed by the
`while (heightLeft >= 0)` loop of `generatePDF`, starting from a given
`heightLeft`.  Each round subtracts `pageHeight`. -/
def pdfLoopPages (heightLeft : ℚ) : ℕ :=
  if h : 0 ≤ heightLeft then pdfLoopPages (heightLeft - pageHeight) + 1
  else 0
termination_by (⌊heightLeft⌋ + 1).toNat
decreasing_by
  have hfl : (0 : ℤ) ≤ ⌊heightLeft⌋ := Int.floor_nonneg.mpr h
  have hsub : ⌊heightLeft - pageHeight⌋ = ⌊heightLeft⌋ - 295 := by
    have h295 : ⌊heightLeft - ((295 : ℤ) : ℚ)⌋ = ⌊heightLeft⌋ - 295 :=
      Int.floor_sub_int heightLeft 295
    simp only [pageHeight]
    exact_mod_cast h295
  rw [hsub]
  omega

/-- The scaled image height `imgHeight = canvas.height * imgWidth /
canvas.width` with `imgWidth = 210`, as an exact rational. -/
def imgHeight (canvasHeight canvasWidth : ℕ) : ℚ :=
  (canvasHeight : ℚ) * 210 / (canvasWidth : ℚ)

/-- Total number of pages `generatePDF` emits for a rasterized image of
scaled height `h`: one first page, then `heightLeft = h - pageHeight` and
the `while (heightLeft >= 0)` loop. -/
def generatePDFPageCount (h : ℚ) : ℕ :=
  1 + pdfLoopPages (h - pageHeight)

/-- Modelled from the spec: "the number of P-sized bands needed to cover
H", i.e. `⌈H / P⌉` with `P = pageHeight`, for comparison with
`generatePDFPageCount`. -/
def bandsNeeded (h : ℚ) : ℕ :=
  (⌈h / pageHeight⌉).toNat

/-! ## Call-sheet assembly (CallSheetGenerator preview) -/

/-- The `productions` row as the call-sheet page uses it. -/
structure Production where
  id : String
  name : String
  shoot_date : Option String
  call_time : Option String
  location_address : Option String
  location_details : Option String
  client_name : Option String
  producer_name : Option String
  producer_phone : Option String
  weather_backup : Option String
  parking_info : Option String
  special_notes : Option String
deriving Repr, DecidableEq, Inhabited

/-- A `crew_members` row as the call-sheet page uses it. -/
structure CrewMember where
  id : String
  name : String
  role : String
  call_time : Option String
  phone : Option String
  email : Option String
  notes : Option String
deriving Repr, DecidableEq, Inhabited

/-- A `looks` row as the call-sheet page loads it (`id, name,
sequence_order` only). -/
structure LookRef where
  id : String
  name : String
  sequence_order : Nat
deriving Repr, DecidableEq, Inhabited

/-- One crew-table row of the preview: name, role, call time and phone,
the latter two rendered as `'-'` when falsy (`member.call_time || '-'`). -/
structure CrewRow where
  name : String
  role : String
  call_time : String
  phone : String
deriving Repr, DecidableEq

/-- The assembled call-sheet preview, section by section in document
order.  An `Option` field is `none` exactly when the corresponding JSX is
conditionally omitted (`x && (...)` with `x` falsy, or a list-length
guard); a `String` field holds the rendered text, `"TBD"` included.
`new Date(...).toLocaleDateString()` is abstracted as the stored string
itself: the claims concern only presence and the TBD fallback, not
locale formatting. -/
structure CallSheetDoc where
  headerName : String
  clientLine : Option String
  dateField : String
  callTimeField : String
  producerField : String
  phoneField : String
  addressField : String
  detailsLine : Option String
  parkingLine : Option String
  weatherLine : Option String
  crewSection : Option (List CrewRow)
  looksSection : Option (List String)
  emergencyLine : String
  notesSection : Option String
deriving Repr, DecidableEq

/-- The numbered look list: `looks.map((look, index) => "Look {index + 1}:
{look.name}")`, with `index` starting at `i`. -/
def looksLines (i : Nat) : List LookRef → List String
  | [] => []
  | look :: rest => s!"Look {i + 1}: {look.name}" :: looksLines (i + 1) rest

/-- JS `o && line`: the line is rendered only when the nullable string is
truthy. -/
def jsAndLine (o : Option String) (line : String → String) : Option String :=
  match o with
  | none => none
  | some s => if s = "" then none else some (line s)

/-- The call-sheet preview JSX as a pure document builder. -/
def buildCallSheet (p : Production) (crew : List CrewMember)
    (looks : List LookRef) : CallSheetDoc :=
  { headerName := p.name
    clientLine := jsAndLine p.client_name (fun s => s!"Client: {s}")
    dateField := jsOrDefault p.shoot_date "TBD"
    callTimeField := jsOrDefault p.call_time "TBD"
    producerField := jsOrDefault p.producer_name "TBD"
    phoneField := jsOrDefault p.producer_phone "TBD"
    addressField := jsOrDefault p.location_address "TBD"
    detailsLine := jsAndLine p.location_details (fun s => s!"Details: {s}")
    parkingLine := jsAndLine p.parking_info (fun s => s!"Parking: {s}")
    weatherLine := jsAndLine p.weather_backup (fun s => s!"Weather Backup: {s}")
    crewSection :=
      if crew.length > 0 then
        some (crew.map fun m =>
          { name := m.name, role := m.role
            call_time := jsOrDefault m.call_time "-"
            phone := jsOrDefault m.phone "-" })
      else none
    looksSection :=
      if looks.length > 0 then some (looksLines 0 looks) else none
    emergencyLine :=
      let pn := jsOrDefault p.producer_name "TBD"
      let pp := jsOrDefault p.producer_phone "TBD"
      s!"{pn} - {pp}"
    notesSection := jsAndLine p.special_notes (fun s => s) }

/-! ## Helper lemmas -/

lemma foldl_max_init_le (a : ℕ) (xs : List ℕ) : a ≤ xs.foldl Nat.max a := by
  induction xs generalizing a with
  | nil => exact Nat.le_refl a
  | cons x xs ih => exact Nat.le_trans (Nat.le_max_left a x) (ih (Nat.max a x))

lemma mem_le_foldl_max (xs : List ℕ) (a x : ℕ) (hx : x ∈ xs) :
    x ≤ xs.foldl Nat.max a := by
  induction xs generalizing a with
  | nil => cases hx
  | cons y ys ih =>
    rcases List.mem_cons.mp hx with h | h
    · subst h
      exact Nat.le_trans (Nat.le_max_right a x) (foldl_max_init_le _ ys)
    · exact ih (Nat.max a y) h

lemma foldl_max_mem (xs : List ℕ) (a : ℕ) :
    xs.foldl Nat.max a = a ∨ xs.foldl Nat.max a ∈ xs := by
  induction xs generalizing a with
  | nil => exact Or.inl rfl
  | cons y ys ih =>
    rcases ih (Nat.max a y) with h | h
    · rcases Nat.le_total y a with hm | hm
      · exact Or.inl (by simpa [Nat.max_eq_left hm] using h)
      · refine Or.inr ?_
        have hmax : Nat.max a y = y := Nat.max_eq_right hm
        rw [List.foldl_cons, h, hmax]
        exact List.mem_cons_self y ys
    · exact Or.inr (List.mem_cons_of_mem y h)

lemma itemsToInsert_length (pid : String) (td : List Blueprint) :
    ∀ i, (itemsToInsert pid i td).length = td.length := by
  induction td with
  | nil => intro i; rfl
  | cons bp rest ih => intro i; simp [itemsToInsert, ih]

lemma itemsToInsert_getD (pid : String) (td : List Blueprint) :
    ∀ i k, k < td.length →
      (itemsToInsert pid i td).getD k default
        = blueprintToItem pid (td.getD k default) (i + k) := by
  induction td with
  | nil => intro i k hk; cases hk
  | cons bp rest ih =>
    intro i k hk
    cases k with
    | zero => simp [itemsToInsert]
    | succ k =>
      have hk' : k < rest.length := by simpa using hk
      have h1 := ih (i + 1) k hk'
      have harith : i + (k + 1) = i + 1 + k := by omega
      simp only [itemsToInsert, List.getD_cons_succ]
      rw [harith]
      exact h1

lemma itemsToInsert_production_id (pid : String) (td : List Blueprint) :
    ∀ i, ∀ r ∈ itemsToInsert pid i td, r.production_id = pid := by
  induction td with
  | nil => intro i r hr; cases hr
  | cons bp rest ih =>
    intro i r hr
    rcases List.mem_cons.mp hr with h | h
    · subst h; rfl
    · exact ih (i + 1) r h

/-! ## Claims -/

/-- C3: `moveUp` at index 0 and `moveDown` at the last index leave the
list, every stored `sequence_order`, and the remote store untouched: the
returned list is the input list and no update write is issued. -/
theorem move_boundary_noop (looks : List Look) :
    moveUp looks 0 = ⟨looks, []⟩ ∧
    (looks ≠ [] → moveDown looks (looks.length - 1) = ⟨looks, []⟩) := by
  constructor
  · simp [moveUp]
  · intro hne
    have hlen : 1 ≤ looks.length := List.length_pos.mpr hne
    have hcast : ((looks.length - 1 : ℕ) : Int) = (looks.length : Int) - 1 := by
      omega
    simp [moveDown, hcast]

/-- C3 witness: a concrete two-element list at both boundaries. -/
theorem move_boundary_noop_witness :
    ([⟨"a", "A", "", none, 0, ""⟩, ⟨"b", "B", "", none, 1, ""⟩] : List Look) ≠ [] ∧
    moveDown [⟨"a", "A", "", none, 0, ""⟩, ⟨"b", "B", "", none, 1, ""⟩]
      (([⟨"a", "A", "", none, 0, ""⟩, ⟨"b", "B", "", none, 1, ""⟩] : List Look).length - 1)
      = ⟨[⟨"a", "A", "", none, 0, ""⟩, ⟨"b", "B", "", none, 1, ""⟩], []⟩ := by
  refine ⟨by decide, ?_⟩
  exact (move_boundary_noop _).2 (by decide)

/-- A sibling list whose only schedule item carries a gapped sequence
index, exercising the creation-index rule. -/
def gappedItem : ScheduleItem :=
  { production_id := "p", title := "Setup", description := ""
    start_time := "09:00", end_time := none, category := "general"
    location := none, notes := none, sequence_order := 5 }

/-- A valid new-item form (non-blank title, start time present). -/
def sampleForm : NewItemForm :=
  { title := "Shoot", description := "", start_time := "10:00"
    end_time := "", category := "general", location := "", notes := "" }

/-- C1 counterexample: with one existing sibling whose sequence index is 5,
`addScheduleItem` stores index `scheduleItems.length = 1`, not
`max(existing) + 1 = 6`. -/
theorem create_index_not_max_plus_one :
    (addScheduleItem "p" sampleForm [gappedItem]).inserted.map (·.sequence_order) = [1]
    ∧ (([gappedItem].map (·.sequence_order)).foldl Nat.max 0) + 1 = 6
    ∧ ¬ ((addScheduleItem "p" sampleForm [gappedItem]).inserted.map (·.sequence_order)
          = [(([gappedItem].map (·.sequence_order)).foldl Nat.max 0) + 1]) := by
  refine ⟨?_, by decide, ?_⟩ <;> decide

/-- C1 amended: `createLook` does assign max existing index + 1 (0 on the
empty list), but `addScheduleItem` assigns the number of currently loaded
siblings, which agrees with max + 1 only when the existing indices are
contiguous from 0. -/
theorem create_index_assignment (looks : List Look) (pid : String)
    (form : NewItemForm) (items : List ScheduleItem) (row : ScheduleItem) :
    nextLookOrder [] = 0 ∧
    (looks ≠ [] →
      (∃ l ∈ looks, nextLookOrder looks = l.sequence_order + 1) ∧
      ∀ l ∈ looks, l.sequence_order < nextLookOrder looks) ∧
    (addScheduleItemRow pid form items = some row →
      row.sequence_order = items.length) := by
  refine ⟨rfl, ?_, ?_⟩
  · intro hne
    have hlen : 0 < looks.length := List.length_pos.mpr hne
    have hval : nextLookOrder looks
        = (looks.map (·.sequence_order)).foldl Nat.max 0 + 1 := by
      simp [nextLookOrder, hlen]
    constructor
    · rcases foldl_max_mem (looks.map (·.sequence_order)) 0 with hm | hm
      · obtain ⟨l₀, hl₀⟩ := List.exists_mem_of_ne_nil looks hne
        refine ⟨l₀, hl₀, ?_⟩
        have hle : l₀.sequence_order
            ≤ (looks.map (·.sequence_order)).foldl Nat.max 0 :=
          mem_le_foldl_max _ _ _ (List.mem_map_of_mem _ hl₀)
        omega
      · obtain ⟨l₀, hl₀, heq⟩ := List.mem_map.mp hm
        exact ⟨l₀, hl₀, by omega⟩
    · intro l hl
      have hle : l.sequence_order
          ≤ (looks.map (·.sequence_order)).foldl Nat.max 0 :=
        mem_le_foldl_max _ _ _ (List.mem_map_of_mem _ hl)
      omega
  · intro hrow
    unfold addScheduleItemRow at hrow
    by_cases hcond : jsTrim form.title = "" ∨ form.start_time = ""
    · simp [hcond] at hrow
    · simp only [hcond, if_false] at hrow
      cases hrow
      rfl

/-- C1 witness: the amended statement applied to a one-look list with a
gapped index and to the concrete schedule insert above. -/
theorem create_index_assignment_witness :
    ([⟨"a", "A", "", none, 7, ""⟩] : List Look) ≠ [] ∧
    addScheduleItemRow "p" sampleForm [gappedItem]
      = some ((addScheduleItem "p" sampleForm [gappedItem]).inserted.getD 0 default) ∧
    (nextLookOrder [] = 0 ∧
      (([⟨"a", "A", "", none, 7, ""⟩] : List Look) ≠ [] →
        (∃ l ∈ ([⟨"a", "A", "", none, 7, ""⟩] : List Look),
          nextLookOrder [⟨"a", "A", "", none, 7, ""⟩] = l.sequence_order + 1) ∧
        ∀ l ∈ ([⟨"a", "A", "", none, 7, ""⟩] : List Look),
          l.sequence_order < nextLookOrder [⟨"a", "A", "", none, 7, ""⟩]) ∧
      (addScheduleItemRow "p" sampleForm [gappedItem]
          = some ((addScheduleItem "p" sampleForm [gappedItem]).inserted.getD 0 default) →
        ((addScheduleItem "p" sampleForm [gappedItem]).inserted.getD 0 default).sequence_order
          = ([gappedItem] : List ScheduleItem).length)) := by
  refine ⟨by decide, by decide, ?_⟩
  exact create_index_assignment [⟨"a", "A", "", none, 7, ""⟩] "p" sampleForm [gappedItem] _

/-- C10: `addScheduleItem` with a blank-after-trim title or an empty start
time writes nothing and leaves the local list unchanged; with both present
it stores the trimmed title and stores empty optional fields (end time,
location, notes) as null. -/
theorem addScheduleItem_validation (pid : String) (form : NewItemForm)
    (items : List ScheduleItem) :
    ((jsTrim form.title = "" ∨ form.start_time = "") →
      addScheduleItem pid form items = ⟨items, []⟩) ∧
    (jsTrim form.title ≠ "" → form.start_time ≠ "" →
      ∃ row, addScheduleItem pid form items = ⟨items ++ [row], [row]⟩ ∧
        row.title = jsTrim form.title ∧
        (form.end_time = "" → row.end_time = none) ∧
        (jsTrim form.location = "" → row.location = none) ∧
        (jsTrim form.notes = "" → row.notes = none)) := by
  constructor
  · intro h
    simp [addScheduleItem, addScheduleItemRow, h]
  · intro ht hs
    have hcond : ¬ (jsTrim form.title = "" ∨ form.start_time = "") := by
      simp [ht, hs]
    refine ⟨{ production_id := pid
              title := jsTrim form.title
              description := jsTrim form.description
              start_time := form.start_time
              end_time := if form.end_time = "" then none else some form.end_time
              category := form.category
              location := if jsTrim form.location = "" then none
                          else some (jsTrim form.location)
              notes := if jsTrim form.notes = "" then none
                       else some (jsTrim form.notes)
              sequence_order := items.length }, ?_, rfl, ?_, ?_, ?_⟩
    · simp [addScheduleItem, addScheduleItemRow, hcond]
    · intro he; simp [he]
    · intro hl; simp [hl]
    · intro hn; simp [hn]

/-- C10 witness: a concrete form whose title needs trimming and whose
optional fields are empty. -/
theorem addScheduleItem_validation_witness :
    jsTrim " Hair & Makeup " ≠ "" ∧ ("07:30" : String) ≠ "" ∧
    ∃ row,
      addScheduleItem "p" ⟨" Hair & Makeup ", "", "07:30", "", "general", " ", ""⟩ []
        = ⟨[] ++ [row], [row]⟩ ∧
      row.title = jsTrim " Hair & Makeup " ∧
      (("" : String) = "" → row.end_time = none) ∧
      (jsTrim " " = "" → row.location = none) ∧
      (jsTrim "" = "" → row.notes = none) := by
  refine ⟨by decide, by decide, ?_⟩
  exact (addScheduleItem_validation "p"
    ⟨" Hair & Makeup ", "", "07:30", "", "general", " ", ""⟩ []).2 (by decide) (by decide)

/-- C2: for a list of at least two looks, `moveUp i` with `0 < i ≤ N - 1`
swaps positions `i` and `i - 1`, stamps both swapped entries'
`sequence_order` with their new positions, leaves every other position
unchanged, and issues exactly the two index-update writes; `moveDown i`
with `i < N - 1` does the same one position toward the end. -/
theorem move_swaps_adjacent (looks : List Look) (i : Nat)
    (h2 : 2 ≤ looks.length) (h0 : 0 < i) (hi : i ≤ looks.length - 1) :
    ((moveUp looks i).newLooks.length = looks.length ∧
      (moveUp looks i).newLooks[i]?
        = some { looks.getD (i - 1) default with sequence_order := i } ∧
      (moveUp looks i).newLooks[i - 1]?
        = some { looks.getD i default with sequence_order := i - 1 } ∧
      (∀ j, j ≠ i → j ≠ i - 1 → (moveUp looks i).newLooks[j]? = looks[j]?) ∧
      (moveUp looks i).writes
        = [((looks.getD (i - 1) default).id, i), ((looks.getD i default).id, i - 1)] ∧
      (moveUp looks i).writes.length = 2) ∧
    (i < looks.length - 1 →
      (moveDown looks i).newLooks.length = looks.length ∧
      (moveDown looks i).newLooks[i]?
        = some { looks.getD (i + 1) default with sequence_order := i } ∧
      (moveDown looks i).newLooks[i + 1]?
        = some { looks.getD i default with sequence_order := i + 1 } ∧
      (∀ j, j ≠ i → j ≠ i + 1 → (moveDown looks i).newLooks[j]? = looks[j]?) ∧
      (moveDown looks i).writes
        = [((looks.getD (i + 1) default).id, i), ((looks.getD i default).id, i + 1)] ∧
      (moveDown looks i).writes.length = 2) := by
  have hilen : i < looks.length := by omega
  constructor
  · have hne : i ≠ 0 := by omega
    simp only [moveUp, hne, if_false]
    refine ⟨by simp, ?_, ?_, ?_, by simp, by simp⟩
    · rw [List.getElem?_set_ne (by omega : i - 1 ≠ i)]
      exact List.getElem?_set_eq_of_lt _ hilen
    · exact List.getElem?_set_eq_of_lt _ (by simpa using (by omega : i - 1 < looks.length))
    · intro j hj1 hj2
      rw [List.getElem?_set_ne (fun h => hj2 h.symm),
        List.getElem?_set_ne (fun h => hj1 h.symm)]
  · intro hdown
    have hne : ¬ ((i : Int) = (looks.length : Int) - 1) := by omega
    simp only [moveDown, hne, if_false]
    refine ⟨by simp, ?_, ?_, ?_, by simp, by simp⟩
    · rw [List.getElem?_set_ne (by omega : i + 1 ≠ i)]
      exact List.getElem?_set_eq_of_lt _ hilen
    · exact List.getElem?_set_eq_of_lt _
        (by simpa using (by omega : i + 1 < looks.length))
    · intro j hj1 hj2
      rw [List.getElem?_set_ne (fun h => hj2 h.symm),
        List.getElem?_set_ne (fun h => hj1 h.symm)]

/-- C2 witness: `moveUp 1` and `moveDown 1` on a concrete three-look
list. -/
theorem move_swaps_adjacent_witness :
    2 ≤ ([⟨"a", "A", "", none, 0, ""⟩, ⟨"b", "B", "", none, 1, ""⟩,
          ⟨"c", "C", "", none, 2, ""⟩] : List Look).length ∧
    0 < 1 ∧
    1 ≤ ([⟨"a", "A", "", none, 0, ""⟩, ⟨"b", "B", "", none, 1, ""⟩,
          ⟨"c", "C", "", none, 2, ""⟩] : List Look).length - 1 ∧
    (moveUp [⟨"a", "A", "", none, 0, ""⟩, ⟨"b", "B", "", none, 1, ""⟩,
             ⟨"c", "C", "", none, 2, ""⟩] 1).writes.length = 2 ∧
    (moveDown [⟨"a", "A", "", none, 0, ""⟩, ⟨"b", "B", "", none, 1, ""⟩,
               ⟨"c", "C", "", none, 2, ""⟩] 1).writes.length = 2 := by
  have h := move_swaps_adjacent
    [⟨"a", "A", "", none, 0, ""⟩, ⟨"b", "B", "", none, 1, ""⟩,
     ⟨"c", "C", "", none, 2, ""⟩] 1 (by decide) (by decide) (by decide)
  exact ⟨by decide, by decide, by decide, h.1.2.2.2.2.2, (h.2 (by decide)).2.2.2.2.2⟩

/-- C4: applying a template of length `L` to an empty schedule (with the
insert succeeding) yields exactly `L` items in blueprint order; item `k`
carries sequence index `k`, passes `title` and `start_time` through from
blueprint `k`, and defaults each absent optional field (description to
`""`, end time, location and notes to null, category to `"general"`). -/
theorem applyTemplate_empty_schedule (pid : String) (td : List Blueprint)
    (db : List ScheduleItem) (o : TemplateOracle) (hins : o.insertOk = true) :
    (applyTemplate pid td [] db o).local_items.length = td.length ∧
    (applyTemplate pid td [] db o).db
      = db ++ (applyTemplate pid td [] db o).local_items ∧
    (applyTemplate pid td [] db o).prompts = [] ∧
    ∀ k, k < td.length →
      ((applyTemplate pid td [] db o).local_items.getD k default).sequence_order = k ∧
      ((applyTemplate pid td [] db o).local_items.getD k default).title
        = (td.getD k default).title ∧
      ((applyTemplate pid td [] db o).local_items.getD k default).start_time
        = (td.getD k default).start_time ∧
      ((td.getD k default).description = none →
        ((applyTemplate pid td [] db o).local_items.getD k default).description = "") ∧
      ((td.getD k default).end_time = none →
        ((applyTemplate pid td [] db o).local_items.getD k default).end_time = none) ∧
      ((td.getD k default).category = none →
        ((applyTemplate pid td [] db o).local_items.getD k default).category
          = "general") ∧
      ((td.getD k default).location = none →
        ((applyTemplate pid td [] db o).local_items.getD k default).location = none) ∧
      ((td.getD k default).notes = none →
        ((applyTemplate pid td [] db o).local_items.getD k default).notes = none) := by
  have hrun : applyTemplate pid td [] db o
      = { local_items := itemsToInsert pid 0 td, db := db ++ itemsToInsert pid 0 td
          prompts := [], alerts := [] } := by
    simp [applyTemplate, hins]
  rw [hrun]
  refine ⟨itemsToInsert_length pid td 0, rfl, rfl, ?_⟩
  intro k hk
  have hgd := itemsToInsert_getD pid td 0 k hk
  simp only [Nat.zero_add] at hgd
  rw [hgd]
  refine ⟨rfl, rfl, rfl, ?_, ?_, ?_, ?_, ?_⟩ <;>
    · intro h
      simp only [blueprintToItem]
      rw [h]
      rfl

/-- C4 witness: a two-blueprint template applied to an empty schedule. -/
theorem applyTemplate_empty_schedule_witness :
    (⟨true, true, true⟩ : TemplateOracle).insertOk = true ∧
    (applyTemplate "p" [⟨"Setup", none, "08:00", none, none, none, none⟩,
        ⟨"Shoot", some "models", "09:00", some "12:00", some "shoot", none, none⟩]
        [] [] ⟨true, true, true⟩).local_items.length
      = ([⟨"Setup", none, "08:00", none, none, none, none⟩,
          ⟨"Shoot", some "models", "09:00", some "12:00", some "shoot", none, none⟩]
          : List Blueprint).length := by
  refine ⟨rfl, ?_⟩
  exact (applyTemplate_empty_schedule "p"
    [⟨"Setup", none, "08:00", none, none, none, none⟩,
     ⟨"Shoot", some "models", "09:00", some "12:00", some "shoot", none, none⟩]
    [] ⟨true, true, true⟩ rfl).1

/-- C5: with a non-empty schedule `applyTemplate` always shows the
confirmation prompt; on decline nothing changes locally or remotely; on
confirm (with both remote steps succeeding) every pre-existing schedule
row of the production is gone and the production's rows are exactly the
template's expansion. -/
theorem applyTemplate_nonempty_schedule (pid : String) (td : List Blueprint)
    (items db : List ScheduleItem) (o : TemplateOracle) (hne : items ≠ []) :
    (applyTemplate pid td items db o).prompts
      = ["This will replace your current schedule. Continue?"] ∧
    (o.confirmOk = false →
      (applyTemplate pid td items db o).local_items = items ∧
      (applyTemplate pid td items db o).db = db) ∧
    (o.confirmOk = true → o.deleteOk = true → o.insertOk = true →
      (applyTemplate pid td items db o).local_items = itemsToInsert pid 0 td ∧
      (applyTemplate pid td items db o).db.filter
          (fun r => r.production_id = pid)
        = itemsToInsert pid 0 td) := by
  have hlen : 0 < items.length := List.length_pos.mpr hne
  refine ⟨?_, ?_, ?_⟩
  · by_cases hc : o.confirmOk <;>
      by_cases hi : o.insertOk <;>
      simp [applyTemplate, hc, hi, hlen, Nat.pos_iff_ne_zero]
  · intro hc
    simp [applyTemplate, hc, hlen, Nat.pos_iff_ne_zero]
  · intro hc hd hi
    have hrun : applyTemplate pid td items db o
        = { local_items := itemsToInsert pid 0 td
            db := db.filter (fun r => r.production_id ≠ pid) ++ itemsToInsert pid 0 td
            prompts := ["This will replace your current schedule. Continue?"]
            alerts := [] } := by
      simp [applyTemplate, hc, hd, hi, hlen, Nat.pos_iff_ne_zero]
    rw [hrun]
    refine ⟨rfl, ?_⟩
    rw [List.filter_append]
    have hleft : (db.filter (fun r => r.production_id ≠ pid)).filter
        (fun r => r.production_id = pid) = [] := by
      rw [List.filter_filter]
      apply List.filter_eq_nil_iff.mpr
      intro r _
      by_cases h : r.production_id = pid <;> simp [h]
    have hright : (itemsToInsert pid 0 td).filter (fun r => r.production_id = pid)
        = itemsToInsert pid 0 td := by
      apply List.filter_eq_self.mpr
      intro r hr
      simp [itemsToInsert_production_id pid td 0 r hr]
    rw [hleft, hright, List.nil_append]

/-- C5 witness: declining and confirming on a concrete one-item
schedule. -/
theorem applyTemplate_nonempty_schedule_witness :
    ([gappedItem] : List ScheduleItem) ≠ [] ∧
    (applyTemplate "p" [⟨"Setup", none, "08:00", none, none, none, none⟩]
        [gappedItem] [gappedItem] ⟨false, true, true⟩).local_items = [gappedItem] ∧
    (applyTemplate "p" [⟨"Setup", none, "08:00", none, none, none, none⟩]
        [gappedItem] [gappedItem] ⟨true, true, true⟩).db.filter
        (fun r => r.production_id = "p")
      = itemsToInsert "p" 0 [⟨"Setup", none, "08:00", none, none, none, none⟩] := by
  refine ⟨by decide, ?_, ?_⟩
  · exact ((applyTemplate_nonempty_schedule "p"
      [⟨"Setup", none, "08:00", none, none, none, none⟩]
      [gappedItem] [gappedItem] ⟨false, true, true⟩ (by decide)).2.1 rfl).1
  · exact ((applyTemplate_nonempty_schedule "p"
      [⟨"Setup", none, "08:00", none, none, none, none⟩]
      [gappedItem] [gappedItem] ⟨true, true, true⟩ (by decide)).2.2 rfl rfl rfl).2


/-- C6 counterexample: a run in which the schedule is non-empty, the user
confirms, and the delete step fails — yet `applyTemplate` shows no alert
at all (its delete result is discarded unchecked) and goes on to insert
the template rows on top of the undeleted ones. -/
theorem expansion_delete_failure_silent :
    (applyTemplate "p" [⟨"Setup", none, "08:00", none, none, none, none⟩]
        [gappedItem] [gappedItem] ⟨true, false, true⟩).alerts = [] ∧
    (applyTemplate "p" [⟨"Setup", none, "08:00", none, none, none, none⟩]
        [gappedItem] [gappedItem] ⟨true, false, true⟩).db
      = [gappedItem]
        ++ itemsToInsert "p" 0 [⟨"Setup", none, "08:00", none, none, none, none⟩] := by
  constructor <;> decide

/-- C6 amended: `applyTemplate` never raises an alert — a delete-step
failure in particular is silent (the delete result is never inspected)
and the insert still proceeds, leaving old and new rows mixed; reorder's
partial write failures are likewise silent (`moveUp`/`moveDown` have no
alert path at all, only the two update writes). -/
theorem expansion_and_reorder_never_alert (pid : String) (td : List Blueprint)
    (items db : List ScheduleItem) (o : TemplateOracle) :
    (applyTemplate pid td items db o).alerts = [] ∧
    (items ≠ [] → o.confirmOk = true → o.deleteOk = false → o.insertOk = true →
      (applyTemplate pid td items db o).db = db ++ itemsToInsert pid 0 td) := by
  constructor
  · by_cases hne : items.length = 0 <;>
      by_cases hc : o.confirmOk <;>
      by_cases hi : o.insertOk <;>
      simp [applyTemplate, hne, hc, hi, Nat.pos_iff_ne_zero]
  · intro hne hc hd hi
    have hlen : 0 < items.length := List.length_pos.mpr hne
    simp [applyTemplate, hc, hd, hi, hlen, Nat.pos_iff_ne_zero]

/-- C6 witness: the amended statement at the concrete delete-failure
run. -/
theorem expansion_and_reorder_never_alert_witness :
    ([gappedItem] : List ScheduleItem) ≠ [] ∧
    (applyTemplate "p" [⟨"Setup", none, "08:00", none, none, none, none⟩]
        [gappedItem] [gappedItem] ⟨true, false, true⟩).db
      = [gappedItem]
        ++ itemsToInsert "p" 0 [⟨"Setup", none, "08:00", none, none, none, none⟩] := by
  refine ⟨by decide, ?_⟩
  exact (expansion_and_reorder_never_alert "p"
    [⟨"Setup", none, "08:00", none, none, none, none⟩]
    [gappedItem] [gappedItem] ⟨true, false, true⟩).2 (by decide) rfl rfl rfl

/-- C7: `calculateDuration` returns `""` when no end time is present;
with an end time on the same nominal day it renders the exact elapsed
minute count as `"{d}min"` when the interval is under one hour, and
otherwise as `"{h}.{t}h"` where the rendered tenths-of-an-hour value is
within half a tenth of the exact interval (hours to one decimal place);
the spec's examples 09:00–09:30 ↦ "30min" and 09:00–11:30 ↦ "2.5h" hold
concretely. -/
theorem calculateDuration_rendering (s e : Nat) (hs : s < 1440) (he : e < 1440) :
    calculateDuration s none = "" ∧
    ((e : Int) - (s : Int) < 60 →
      calculateDuration s (some e) = toString ((e : Int) - (s : Int)) ++ "min") ∧
    (60 ≤ (e : Int) - (s : Int) →
      ∃ deci : Nat, calculateDuration s (some e) = s!"{deci / 10}.{deci % 10}h" ∧
        (6 * (deci : Int) - ((e : Int) - (s : Int))).natAbs ≤ 3 ∧ 10 ≤ deci) ∧
    calculateDuration 540 (some 570) = "30min" ∧
    calculateDuration 540 (some 690) = "2.5h" := by
  refine ⟨rfl, ?_, ?_, by decide, by decide⟩
  · intro hlt
    simp [calculateDuration, hlt]
  · intro hge
    have hnlt : ¬ ((e : Int) - (s : Int) < 60) := by omega
    refine ⟨(((e : Int) - (s : Int)).toNat + 3) / 6, ?_, ?_, ?_⟩
    · simp [calculateDuration, hnlt]
    · omega
    · omega

/-- C7 witness: the rendering theorem applied at 09:00 with ends 09:30
and 11:30. -/
theorem calculateDuration_rendering_witness :
    (540 : Nat) < 1440 ∧ (690 : Nat) < 1440 ∧
    calculateDuration 540 none = "" ∧
    calculateDuration 540 (some 570) = "30min" ∧
    calculateDuration 540 (some 690) = "2.5h" := by
  have h := calculateDuration_rendering 540 690 (by decide) (by decide)
  exact ⟨by decide, by decide, h.1, h.2.2.2.1, h.2.2.2.2⟩

lemma pdfLoopPages_of_neg (h : ℚ) (hh : h < 0) : pdfLoopPages h = 0 := by
  rw [pdfLoopPages]
  simp [not_le.mpr hh]

lemma pdfLoopPages_closed_form (n : ℕ) :
    ∀ h : ℚ, 0 ≤ h → (⌊h / pageHeight⌋).toNat = n → pdfLoopPages h = n + 1 := by
  induction n with
  | zero =>
    intro h hpos hfl
    have hlt : h < 295 := by
      by_contra hge
      push_neg at hge
      have h1 : (1 : ℚ) ≤ h / pageHeight := by
        rw [le_div_iff₀ (by norm_num [pageHeight] : (0 : ℚ) < pageHeight)]
        simpa [pageHeight] using hge
      have : (1 : ℤ) ≤ ⌊h / pageHeight⌋ := by
        exact_mod_cast Int.le_floor.mpr (by exact_mod_cast h1)
      omega
    rw [pdfLoopPages]
    simp only [hpos, dif_pos]
    rw [pdfLoopPages_of_neg _ (by simp only [pageHeight]; linarith)]
  | succ n ih =>
    intro h hpos hfl
    have hfl' : ⌊h / pageHeight⌋ = (n : ℤ) + 1 := by
      have hnn : (0 : ℤ) ≤ ⌊h / pageHeight⌋ :=
        Int.floor_nonneg.mpr (div_nonneg hpos (by norm_num [pageHeight]))
      omega
    have hge : (295 : ℚ) ≤ h := by
      have h1 : (1 : ℚ) ≤ h / pageHeight := by
        have : ((1 : ℤ) : ℚ) ≤ h / pageHeight := by
          refine le_trans ?_ (Int.floor_le (h / pageHeight))
          exact_mod_cast by omega
        exact_mod_cast this
      calc (295 : ℚ) = 1 * pageHeight := by norm_num [pageHeight]
        _ ≤ (h / pageHeight) * pageHeight := by
            exact mul_le_mul_of_nonneg_right h1 (by norm_num [pageHeight])
        _ = h := div_mul_cancel₀ h (by norm_num [pageHeight])
    have hsubfl : ⌊(h - pageHeight) / pageHeight⌋ = (n : ℤ) := by
      have : (h - pageHeight) / pageHeight = h / pageHeight - 1 := by
        rw [sub_div, div_self (by norm_num [pageHeight] : (pageHeight : ℚ) ≠ 0)]
      rw [this, Int.floor_sub_one, hfl']
      omega
    have hsubpos : 0 ≤ h - pageHeight := by
      simp only [pageHeight]
      linarith
    have := ih (h - pageHeight) hsubpos (by rw [hsubfl]; simp)
    rw [pdfLoopPages]
    simp only [hpos, dif_pos]
    omega

/-- C8 counterexample: a scaled image height of exactly one page band
(295, e.g. a 590 x 420 canvas) needs one band to cover it, yet
`generatePDF` emits two pages — the `while (heightLeft >= 0)` loop runs
once more when the height is consumed exactly. -/
theorem generatePDF_extra_page_at_multiple :
    imgHeight 590 420 = 295 ∧
    generatePDFPageCount 295 = 2 ∧
    bandsNeeded 295 = 1 := by
  refine ⟨by norm_num [imgHeight], ?_, ?_⟩
  · have hloop : pdfLoopPages ((295 : ℚ) - pageHeight) = 1 := by
      have : ((295 : ℚ) - pageHeight) = 0 := by norm_num [pageHeight]
      rw [this]
      exact pdfLoopPages_closed_form 0 0 le_rfl (by norm_num)
    simp [generatePDFPageCount, hloop]
  · norm_num [bandsNeeded, pageHeight]

/-- C8 amended: the export loop always terminates and emits exactly
`⌊H / P⌋ + 1` pages for a scaled image height `H ≥ 0` and band height
`P = 295`; this equals the number of bands needed to cover `H` except
when `H` is an exact positive multiple of `P`, where one extra (blank)
page is emitted. -/
theorem generatePDF_page_count (h : ℚ) (hpos : 0 ≤ h) :
    generatePDFPageCount h = (⌊h / pageHeight⌋).toNat + 1 ∧
    ((¬ ∃ k : ℤ, h = pageHeight * k) →
      generatePDFPageCount h = bandsNeeded h) := by
  have hmain : generatePDFPageCount h = (⌊h / pageHeight⌋).toNat + 1 := by
    by_cases hge : pageHeight ≤ h
    · have hsubpos : 0 ≤ h - pageHeight := by linarith
      have h1 : (1 : ℚ) ≤ h / pageHeight := by
        rw [le_div_iff₀ (by norm_num [pageHeight] : (0 : ℚ) < pageHeight)]
        simpa using hge
      have hfl1 : (1 : ℤ) ≤ ⌊h / pageHeight⌋ :=
        Int.le_floor.mpr (by exact_mod_cast h1)
      have hsubfl : ⌊(h - pageHeight) / pageHeight⌋ = ⌊h / pageHeight⌋ - 1 := by
        have heq : (h - pageHeight) / pageHeight = h / pageHeight - 1 := by
          rw [sub_div, div_self (by norm_num [pageHeight] : (pageHeight : ℚ) ≠ 0)]
        rw [heq, Int.floor_sub_one]
      have := pdfLoopPages_closed_form (⌊h / pageHeight⌋ - 1).toNat
        (h - pageHeight) hsubpos (by rw [hsubfl])
      simp only [generatePDFPageCount]
      omega
    · push_neg at hge
      have hfl0 : ⌊h / pageHeight⌋ = 0 := by
        apply Int.floor_eq_zero_iff.mpr
        constructor
        · exact div_nonneg hpos (by norm_num [pageHeight])
        · rw [div_lt_one (by norm_num [pageHeight] : (0 : ℚ) < pageHeight)]
          simpa using hge
      have hloop : pdfLoopPages (h - pageHeight) = 0 :=
        pdfLoopPages_of_neg _ (by linarith)
      simp [generatePDFPageCount, hloop, hfl0]
  refine ⟨hmain, ?_⟩
  intro hnm
  rw [hmain]
  have hfr : h / pageHeight ≠ (⌊h / pageHeight⌋ : ℚ) := by
    intro habs
    apply hnm
    refine ⟨⌊h / pageHeight⌋, ?_⟩
    have hval := (div_eq_iff (by norm_num [pageHeight] : (pageHeight : ℚ) ≠ 0)).mp habs
    exact hval.trans (mul_comm _ _)
  have hceil : ⌈h / pageHeight⌉ = ⌊h / pageHeight⌋ + 1 := by
    rcases lt_or_gt_of_ne hfr with hlt | hlt
    · exact absurd (Int.floor_le (h / pageHeight)) (not_le.mpr hlt)
    · apply le_antisymm
      · apply Int.ceil_le.mpr
        push_cast
        have := Int.lt_floor_add_one (h / pageHeight)
        linarith
      · apply Int.add_one_le_ceil_iff.mpr
        exact_mod_cast hlt
  have hnn : (0 : ℤ) ≤ ⌊h / pageHeight⌋ :=
    Int.floor_nonneg.mpr (div_nonneg hpos (by norm_num [pageHeight]))
  simp only [bandsNeeded, hceil]
  omega

/-- C8 witness: the page-count closed form at height 300 (two pages, and
300 is not a multiple of 295, so it also equals the bands needed). -/
theorem generatePDF_page_count_witness :
    (0 : ℚ) ≤ 300 ∧
    generatePDFPageCount 300 = (⌊(300 : ℚ) / pageHeight⌋).toNat + 1 ∧
    generatePDFPageCount 300 = bandsNeeded 300 := by
  have h := generatePDF_page_count 300 (by norm_num)
  refine ⟨by norm_num, h.1, h.2 ?_⟩
  rintro ⟨k, hk⟩
  simp only [pageHeight] at hk
  have hk' : (300 : ℤ) * 1 = 295 * k * 1 := by
    exact_mod_cast congrArg (· * (1 : ℚ)) hk
  omega

/-- A production with every optional field absent. -/
def bareProduction : Production :=
  { id := "p", name := "Spring Editorial", shoot_date := none, call_time := none
    location_address := none, location_details := none, client_name := none
    producer_name := none, producer_phone := none, weather_backup := none
    parking_info := none, special_notes := none }

/-- A crew member with no call time and no phone. -/
def bareCrew : CrewMember :=
  { id := "c", name := "Ana", role := "Photographer", call_time := none
    phone := none, email := none, notes := none }

/-- C9 counterexample: with `client_name`, `location_details`,
`parking_info`, `weather_backup` and `special_notes` absent, the document
renders nothing at those fields' positions (the lines are omitted, no
"TBD" is shown), and a crew row's absent call time and phone render as
"-", not "TBD". -/
theorem callSheet_absent_fields_not_all_tbd :
    (buildCallSheet bareProduction [bareCrew] []).clientLine = none ∧
    (buildCallSheet bareProduction [bareCrew] []).detailsLine = none ∧
    (buildCallSheet bareProduction [bareCrew] []).parkingLine = none ∧
    (buildCallSheet bareProduction [bareCrew] []).weatherLine = none ∧
    (buildCallSheet bareProduction [bareCrew] []).notesSection = none ∧
    (buildCallSheet bareProduction [bareCrew] []).crewSection
      = some [{ name := "Ana", role := "Photographer", call_time := "-", phone := "-" }] ∧
    ("-" : String) ≠ "TBD" := by
  refine ⟨rfl, rfl, rfl, rfl, rfl, ?_, by decide⟩
  decide

/-- C9 amended: the crew and looks sections are omitted entirely when the
corresponding list is empty; "TBD" is the fallback for the production-info
grid (date, call time, producer, phone), the location address, and the
emergency-contact line; the remaining absent optional fields (client name,
location details, parking, weather backup, special notes) render nothing
at all, and absent crew-table cells render "-". -/
theorem callSheet_sections_and_fallbacks (p : Production)
    (crew : List CrewMember) (looks : List LookRef) :
    (crew = [] → (buildCallSheet p crew looks).crewSection = none) ∧
    (looks = [] → (buildCallSheet p crew looks).looksSection = none) ∧
    (p.shoot_date = none → (buildCallSheet p crew looks).dateField = "TBD") ∧
    (p.call_time = none → (buildCallSheet p crew looks).callTimeField = "TBD") ∧
    (p.producer_name = none → (buildCallSheet p crew looks).producerField = "TBD") ∧
    (p.producer_phone = none → (buildCallSheet p crew looks).phoneField = "TBD") ∧
    (p.location_address = none → (buildCallSheet p crew looks).addressField = "TBD") ∧
    (p.producer_name = none → p.producer_phone = none →
      (buildCallSheet p crew looks).emergencyLine = "TBD - TBD") ∧
    (p.client_name = none → (buildCallSheet p crew looks).clientLine = none) ∧
    (p.location_details = none → (buildCallSheet p crew looks).detailsLine = none) ∧
    (p.parking_info = none → (buildCallSheet p crew looks).parkingLine = none) ∧
    (p.weather_backup = none → (buildCallSheet p crew looks).weatherLine = none) ∧
    (p.special_notes = none → (buildCallSheet p crew looks).notesSection = none) ∧
    (∀ m ∈ crew, m.call_time = none → m.phone = none →
      ∃ rows, (buildCallSheet p crew looks).crewSection = some rows ∧
        { name := m.name, role := m.role, call_time := "-", phone := "-" } ∈ rows) := by
  refine ⟨?_, ?_, ?_, ?_, ?_, ?_, ?_, ?_, ?_, ?_, ?_, ?_, ?_, ?_⟩
  · intro h; simp [buildCallSheet, h]
  · intro h; simp [buildCallSheet, h]
  · intro h; simp [buildCallSheet, h, jsOrDefault]
  · intro h; simp [buildCallSheet, h, jsOrDefault]
  · intro h; simp [buildCallSheet, h, jsOrDefault]
  · intro h; simp [buildCallSheet, h, jsOrDefault]
  · intro h; simp [buildCallSheet, h, jsOrDefault]
  · intro h1 h2; simp [buildCallSheet, h1, h2, jsOrDefault]; rfl
  · intro h; simp [buildCallSheet, h, jsAndLine]
  · intro h; simp [buildCallSheet, h, jsAndLine]
  · intro h; simp [buildCallSheet, h, jsAndLine]
  · intro h; simp [buildCallSheet, h, jsAndLine]
  · intro h; simp [buildCallSheet, h, jsAndLine]
  · intro m hm hct hph
    have hne : crew ≠ [] := List.ne_nil_of_mem hm
    have hlen : 0 < crew.length := List.length_pos.mpr hne
    refine ⟨crew.map fun c =>
      { name := c.name, role := c.role
        call_time := jsOrDefault c.call_time "-"
        phone := jsOrDefault c.phone "-" }, ?_, ?_⟩
    · simp [buildCallSheet, hlen]
    · refine List.mem_map.mpr ⟨m, hm, ?_⟩
      simp [hct, hph, jsOrDefault]

/-- C9 witness: the amended statement at the bare production with one
bare crew member and no looks. -/
theorem callSheet_sections_and_fallbacks_witness :
    ([] : List LookRef) = [] ∧
    (buildCallSheet bareProduction [bareCrew] []).looksSection = none ∧
    (buildCallSheet bareProduction [bareCrew] []).dateField = "TBD" ∧
    (buildCallSheet bareProduction [bareCrew] []).emergencyLine = "TBD - TBD" := by
  have h := callSheet_sections_and_fallbacks bareProduction [bareCrew] []
  exact ⟨rfl, h.2.1 rfl, h.2.2.1 rfl, h.2.2.2.2.2.2.2.1 rfl rfl⟩
